import Mathlib

/-!
Shallow embedding of the `reqwest_native` transport crate
(`src/httpx/_transports/reqwest_native/src/*.rs`): the async client's
request/close pipeline, admission gate, response stream, trace middleware
and extension-map conversions, together with theorems about the claims
of the specification.

Modelling conventions:
- Rust byte sequences (`Vec<u8>`) are `List Nat` (each element a byte value).
- `PyErr` values are modelled as a kind (the concrete exception class created
  in `exceptions.rs` or a builtin) together with the message string.
- Fallible Rust functions returning `PyResult<T>` become `Except PyErr T`.
- The out-of-scope collaborators (`parse_method`, `parse_url`, the reqwest
  Transport, the Python hook callbacks) are passed in as their result values,
  as the spec prescribes ("treated as a pure function ... -> T | Error").
- Observable resource effects (semaphore permit acquisition/release, the
  dispatch to the Transport) are recorded in an explicit event list.
-/

deriving instance DecidableEq for Except

namespace HttpxNative

/-- Exception classes used by the crate: the classes created in
`exceptions.rs` plus the pyo3 builtins the code raises. -/
inductive ErrKind where
  | badMethod
  | badUrl
  | badHeader
  | sendConnection
  | sendTimeout
  | sendUnknown
  | poolTimeout
  | readConnection
  | readTimeout
  | readUnknown
  | runtimeError
  | valueError
  | stopAsyncIteration
  deriving DecidableEq, Repr

/-- A raised Python exception: its class and its message. -/
structure PyErr where
  kind : ErrKind
  msg : String
  deriving DecidableEq, Repr

/-- Bytes of an ASCII string (`String::into_bytes` for the strings used here). -/
def stringBytes (s : String) : List Nat :=
  s.toList.map Char.toNat

/-! ## Transport error classification (`map_send_error` / `map_read_error`) -/

/-- Model of `reqwest::Error` as consumed by the crate: the two predicates
the classification inspects (`is_connect`, `is_timeout`) plus the display
message. -/
structure ReqwestError where
  is_connect : Bool
  is_timeout : Bool
  msg : String
  deriving DecidableEq, Repr

/-- `NativeAsyncClient::map_send_error` (async_client.rs lines 197-205). -/
def map_send_error (e : ReqwestError) : PyErr :=
  if e.is_connect then
    ⟨.sendConnection, "Connection error on send: " ++ e.msg⟩
  else if e.is_timeout then
    ⟨.sendTimeout, "Timeout on send: " ++ e.msg⟩
  else
    ⟨.sendUnknown, "Unknown failure on send: " ++ e.msg⟩

/-- `NativeAsyncResponse::map_read_error` (async_response.rs lines 97-105). -/
def map_read_error (e : ReqwestError) : PyErr :=
  if e.is_connect then
    ⟨.readConnection, "Connection error on read: " ++ e.msg⟩
  else if e.is_timeout then
    ⟨.readTimeout, "Timeout on read: " ++ e.msg⟩
  else
    ⟨.readUnknown, "Unknown failure on read: " ++ e.msg⟩

/-- The three transport-error kinds of the spec's taxonomy. -/
inductive TransportErrorClass where
  | connection
  | timeout
  | unknown
  deriving DecidableEq, Repr

/-- The three-way classification rule both mapping functions implement:
connection errors first, then timeouts, everything else unknown. -/
def classifyTransportError (e : ReqwestError) : TransportErrorClass :=
  if e.is_connect then .connection
  else if e.is_timeout then .timeout
  else .unknown

/-- Which transport-error class an exception class belongs to (`none` for
exception classes that are not transport errors). -/
def errKindClass : ErrKind → Option TransportErrorClass
  | .sendConnection => some .connection
  | .sendTimeout => some .timeout
  | .sendUnknown => some .unknown
  | .readConnection => some .connection
  | .readTimeout => some .timeout
  | .readUnknown => some .unknown
  | _ => none

/-! ## Header validation (http crate `HeaderName` / `HeaderValue`) -/

/-- Valid bytes of an HTTP header name per the http crate's table used by
`HeaderName::from_bytes`: ASCII letters and digits plus the token symbols. -/
def isHeaderNameByte (b : Nat) : Bool :=
  (48 ≤ b && b ≤ 57) || (97 ≤ b && b ≤ 122) || (65 ≤ b && b ≤ 90) ||
  b == 33 || b == 35 || b == 36 || b == 37 || b == 38 || b == 39 ||
  b == 42 || b == 43 || b == 45 || b == 46 || b == 94 || b == 95 ||
  b == 96 || b == 124 || b == 126

/-- ASCII lowercasing of one byte, the normalization `HeaderName` applies. -/
def lowerByte (b : Nat) : Nat :=
  if 65 ≤ b && b ≤ 90 then b + 32 else b

/-- `HeaderName::from_bytes`: a nonempty sequence of valid name bytes,
normalized to lowercase; `none` is the parse error. -/
def headerNameFromBytes (bs : List Nat) : Option (List Nat) :=
  if bs ≠ [] && bs.all isHeaderNameByte then some (bs.map lowerByte) else none

/-- Valid byte of an HTTP header value per `HeaderValue::from_bytes`:
horizontal tab, or any byte that is at least 0x20 and not 0x7f. -/
def isHeaderValueByte (b : Nat) : Bool :=
  b == 9 || (32 ≤ b && b != 127)

/-- `HeaderValue::from_bytes` succeeds exactly when all bytes are valid. -/
def headerValueValid (bs : List Nat) : Bool :=
  bs.all isHeaderValueByte

/-! ## Admission gate (`limit_connections`, async_client.rs lines 207-219) -/

/-- Resource events observable during the request pipeline: a semaphore
permit being taken, a permit being returned, and the dispatch of the built
request to the Transport (the network I/O step). -/
inductive PipelineEvent where
  | acquirePermit
  | releasePermit
  | dispatch
  deriving DecidableEq, Repr

/-- tokio `Semaphore::acquire_owned` at its completion point: the task has
suspended (without polling) until a permit was free and takes one, so the
available count decreases by one.  The semaphore is never closed by this
crate, so the `Closed` error arm of the source (`permit.map_err`) is
unreachable and the acquisition itself always yields `ok`. -/
def acquire_owned (available : Nat) : Except PyErr Unit × Nat :=
  (.ok (), available - 1)

/-- `NativeAsyncClient::limit_connections` (async_client.rs lines 207-219).
`deadlineElapsed` is the outcome of the `tokio::time::timeout` race: `true`
means the connect deadline fired before `acquire_owned` completed, in which
case the pending acquire future is dropped before ever taking a permit
(tokio cancel-safety), so the available count is returned unchanged. -/
def limit_connections (available : Nat) (connect_timeout : Option Nat)
    (deadlineElapsed : Bool) : Except PyErr Unit × Nat :=
  match connect_timeout with
  | some _ =>
    if deadlineElapsed then
      (.error ⟨.poolTimeout, "Timeout acquiring semaphore"⟩, available)
    else
      acquire_owned available
  | none => acquire_owned available

/-! ## HTTP version strings -/

/-- `reqwest::Version`: the five published constants; `other` stands for a
hypothetical future variant (the enum is non_exhaustive), carrying its Debug
rendering. -/
inductive Version where
  | http09
  | http10
  | http11
  | http2
  | http3
  | other (dbg : String)
  deriving DecidableEq, Repr

/-- `utils::http_version_str`: the `{:?}` Debug rendering of the version. -/
def http_version_str : Version → String
  | .http09 => "HTTP/0.9"
  | .http10 => "HTTP/1.0"
  | .http11 => "HTTP/1.1"
  | .http2 => "HTTP/2"
  | .http3 => "HTTP/3"
  | .other dbg => dbg

/-- `NativeAsyncResponse::http_version_str` (async_response.rs lines 86-95):
the same five constants, but any other variant is a runtime error. -/
def response_http_version_str : Version → Except PyErr String
  | .http09 => .ok "HTTP/0.9"
  | .http10 => .ok "HTTP/1.0"
  | .http11 => .ok "HTTP/1.1"
  | .http2 => .ok "HTTP/2"
  | .http3 => .ok "HTTP/3"
  | .other _ => .error ⟨.runtimeError, "Unknown HTTP version in response"⟩

/-! ## Proxy configuration (`proxy_config.rs`) -/

/-- A parsed URL as the core consumes it: only the scheme is inspected
(`parse_url` itself is an out-of-scope pure collaborator). -/
structure Url where
  scheme : String
  deriving DecidableEq, Repr

/-- Result of `reqwest::Proxy` construction: the URL, the optional basic-auth
credentials and the optional custom Proxy-Authorization value installed by
`custom_http_auth`. -/
structure ReqwestProxy where
  url : Url
  basic_auth : Option (String × String)
  custom_http_auth : Option (List Nat)
  deriving DecidableEq, Repr

/-- Lowercase byte rendering of the only accepted proxy header name. -/
def proxyAuthName : List Nat := stringBytes "proxy-authorization"

/-- `NativeProxyConfig::build_reqwest_proxy` (proxy_config.rs lines 36-78).
`parsedUrl` is the result of the out-of-scope `parse_url(self.url)` call;
`Proxy::all` succeeds for any parsed URL of an allowed scheme and is
modelled by the record construction. -/
def build_reqwest_proxy (parsedUrl : Except PyErr Url)
    (basic_auth : Option (String × String))
    (headers : Option (List (List Nat × List Nat))) : Except PyErr ReqwestProxy :=
  match parsedUrl with
  | .error e => .error e
  | .ok url =>
    if url.scheme != "http" && url.scheme != "https" &&
        url.scheme != "socks5" && url.scheme != "socks5h" then
      .error ⟨.badUrl, "Invalid URL scheme: " ++ url.scheme⟩
    else
      let proxy : ReqwestProxy :=
        { url := url, basic_auth := basic_auth, custom_http_auth := none }
      match headers with
      | none => .ok proxy
      | some hs =>
        if hs.length > 1 then
          .error ⟨.badHeader, "Only Proxy-Authorization header is allowed, for now."⟩
        else
          match hs.head? with
          | none => .ok proxy
          | some (name, value) =>
            match headerNameFromBytes name with
            | none => .error ⟨.badHeader, "Invalid header name"⟩
            | some lowered =>
              if lowered ≠ proxyAuthName then
                .error ⟨.badHeader, "Only Proxy-Authorization header is allowed, for now."⟩
              else if headerValueValid value then
                .ok { proxy with custom_http_auth := some value }
              else
                .error ⟨.badHeader, "Invalid header value"⟩

/-! ## The response stream (`async_response.rs`) -/

/-- The data the Transport hands back on a successful dispatch, as consumed
by `NativeAsyncResponse::new`: status, header pairs, protocol version, and
(a handle standing for) the in-flight body object. -/
structure TransportResponse where
  status : Nat
  headers : List (List Nat × List Nat)
  version : Version
  bodyHandle : Nat
  deriving DecidableEq, Repr

/-- `NativeAsyncResponse` state: the public descriptor fields plus
`response` (the `Option<Arc<Mutex<Response>>>` body cursor, a handle when
attached) and whether the `Option<OwnedSemaphorePermit>` is still held. -/
structure NativeAsyncResponse where
  status : Nat
  headers : List (List Nat × List Nat)
  http_version : String
  response : Option Nat
  request_semaphore_permit : Bool
  deriving DecidableEq, Repr

/-- `NativeAsyncResponse::new` (async_response.rs lines 29-47): the version
string conversion may fail; on success the body cursor is attached and the
permit (if any) is transferred in. -/
def NativeAsyncResponse.new (resp : TransportResponse) (permit : Bool) :
    Except PyErr NativeAsyncResponse :=
  match response_http_version_str resp.version with
  | .error e => .error e
  | .ok vs =>
    .ok { status := resp.status, headers := resp.headers, http_version := vs,
          response := some resp.bodyHandle, request_semaphore_permit := permit }

/-- Outcome of one `chunk()` call on the underlying reqwest body cursor. -/
inductive ChunkPull where
  | chunk (data : List Nat)
  | eos
  | fail (e : ReqwestError)
  deriving DecidableEq, Repr

/-- `Option::take` on a local binding: leaves `none` behind and yields the
taken value. -/
def takeOption (o : Option Nat) : Option Nat × Option Nat :=
  (none, o)

/-- `NativeAsyncResponse::__anext__` (async_response.rs lines 55-70): fails
when the cursor is detached; otherwise performs one chunk pull under the
cursor's mutex.  The pull outcome is supplied by the Transport.  Note the
permit field is never touched here, on any branch. -/
def NativeAsyncResponse.anext (self : NativeAsyncResponse) (pull : ChunkPull) :
    Except PyErr (List Nat) × NativeAsyncResponse × List PipelineEvent :=
  match self.response with
  | none => (.error ⟨.runtimeError, "Response is not initialized"⟩, self, [])
  | some _ =>
    match pull with
    | .chunk data => (.ok data, self, [])
    | .eos => (.error ⟨.stopAsyncIteration, "End of stream"⟩, self, [])
    | .fail e => (.error (map_read_error e), self, [])

/-- `NativeAsyncResponse::close` (async_response.rs lines 72-82): takes and
drops the permit from `self` (synchronously, under `&mut self`), then clones
`self.response` into a local binding and has the returned future call
`take()` on that local clone — `self.response` itself is never reassigned. -/
def NativeAsyncResponse.close (self : NativeAsyncResponse) :
    NativeAsyncResponse × List PipelineEvent :=
  let step :=
    if self.request_semaphore_permit then
      ({ self with request_semaphore_permit := false }, [PipelineEvent.releasePermit])
    else (self, ([] : List PipelineEvent))
  let localResponse := step.1.response
  let _afterTake := takeOption localResponse
  step

/-- `impl Drop for NativeAsyncResponse` (async_response.rs lines 21-27):
takes and drops the permit if still held. -/
def NativeAsyncResponse.dropResp (self : NativeAsyncResponse) : List PipelineEvent :=
  if self.request_semaphore_permit then [.releasePermit] else []

/-! ## The client (`async_client.rs`) -/

/-- `NativeProxyConfig` as stored on the client (proxy_config.rs lines 10-17). -/
structure NativeProxyConfig where
  url : String
  basic_auth : Option (String × String)
  headers : Option (List (List Nat × List Nat))
  deriving DecidableEq, Repr

/-- `NativeAsyncClient` state: the `Option<Client>` handle (a handle id when
present, since `reqwest::Client` is reference-counted and cheaply cloned),
whether a request semaphore was configured, the connect deadline and the
proxy descriptor.  The semaphore's shared available count is threaded
separately through `request`, since it is shared mutable state. -/
structure NativeAsyncClient where
  client : Option Nat
  request_semaphore : Bool
  connect_timeout : Option Nat
  proxy : Option NativeProxyConfig
  deriving DecidableEq, Repr

/-- A request body after conversion by the body adapter: an eager byte
buffer (`Body::from(py_bytes.to_vec())`) or a wrapped host-side stream
(`Body::wrap_stream`). -/
inductive Body where
  | bytes (data : List Nat)
  | stream (handle : Nat)
  deriving DecidableEq, Repr

/-- Results of the out-of-scope collaborators one `request` call consumes:
the `parse_method` / `parse_url` pure functions, the body conversion
outcome for the supplied content (`none` when no content was passed), the
outcome of the `tokio::time::timeout` race during admission, and the
Transport's `execute` outcome. -/
structure RequestEnv where
  parsedMethod : Except PyErr String
  parsedUrl : Except PyErr Url
  content : Option (Except PyErr Body)
  deadlineElapsed : Bool
  execute : Except ReqwestError TransportResponse
  deriving DecidableEq, Repr

/-- The header-attachment loop of `request` (async_client.rs lines 161-169):
each pair must parse as a `HeaderName` and a `HeaderValue`; the first
failure short-circuits with a `BadHeaderError`. -/
def validateHeaderList : List (List Nat × List Nat) → Except PyErr Unit
  | [] => .ok ()
  | (k, v) :: rest =>
    if (headerNameFromBytes k).isSome then
      if headerValueValid v then validateHeaderList rest
      else .error ⟨.badHeader, "Invalid header value"⟩
    else .error ⟨.badHeader, "Invalid header key"⟩

/-- Header validation over the optional header list of `request`. -/
def validateHeaders : Option (List (List Nat × List Nat)) → Except PyErr Unit
  | none => .ok ()
  | some hs => validateHeaderList hs

/-- The async block of `request` (async_client.rs lines 150-184): permit
acquisition, then the header loop, then `req_builder.build()` (which never
fails for a client-validated method/URL), then the Transport dispatch and
the response construction.  On every error exit after acquisition, the
`OwnedSemaphorePermit` local is dropped, releasing the permit; on success
the permit moves into the `NativeAsyncResponse`. -/
def requestFuture (semaphorePresent : Bool) (available : Nat)
    (connect_timeout : Option Nat) (deadlineElapsed : Bool)
    (headers : Option (List (List Nat × List Nat)))
    (execute : Except ReqwestError TransportResponse) :
    Except PyErr NativeAsyncResponse × List PipelineEvent :=
  let admission : Except PyErr Bool :=
    if semaphorePresent then
      match limit_connections available connect_timeout deadlineElapsed with
      | (.error e, _) => .error e
      | (.ok _, _) => .ok true
    else .ok false
  match admission with
  | .error e => (.error e, [])
  | .ok permitHeld =>
    let acq : List PipelineEvent := if permitHeld then [.acquirePermit] else []
    let rel : List PipelineEvent := if permitHeld then [.releasePermit] else []
    match validateHeaders headers with
    | .error e => (.error e, acq ++ rel)
    | .ok _ =>
      match execute with
      | .error err => (.error (map_send_error err), acq ++ [.dispatch] ++ rel)
      | .ok resp =>
        match NativeAsyncResponse.new resp permitHeld with
        | .error e => (.error e, acq ++ [.dispatch] ++ rel)
        | .ok r => (.ok r, acq ++ [.dispatch])

/-- `NativeAsyncClient::request` (async_client.rs lines 109-185): the
synchronous prefix — client-handle check, `parse_method`, `parse_url`, the
scheme check, the body conversion — followed by the async block
(`requestFuture`).  Returns the result together with the pipeline's
resource-event trace. -/
def NativeAsyncClient.request (self : NativeAsyncClient) (available : Nat)
    (env : RequestEnv) (headers : Option (List (List Nat × List Nat)))
    (timeout : Option Nat) :
    Except PyErr NativeAsyncResponse × List PipelineEvent :=
  match self.client with
  | none => (.error ⟨.runtimeError, "Client is not initialized"⟩, [])
  | some _ =>
    match env.parsedMethod with
    | .error e => (.error e, [])
    | .ok _ =>
      match env.parsedUrl with
      | .error e => (.error e, [])
      | .ok url =>
        if url.scheme != "http" && url.scheme != "https" then
          (.error ⟨.badUrl, "Invalid URL scheme: " ++ url.scheme⟩, [])
        else
          match env.content with
          | some (.error e) => (.error e, [])
          | _ =>
            let _timeout := timeout
            requestFuture self.request_semaphore available self.connect_timeout
              env.deadlineElapsed headers env.execute

/-- `NativeAsyncClient::close` (async_client.rs lines 187-193): clones
`self.client` into a local binding (`let mut client = self.client.clone()`)
and has the returned future call `take()` on that local — dropping the
cloned handle — while `self.client` itself is never reassigned. -/
def NativeAsyncClient.close (self : NativeAsyncClient) : NativeAsyncClient :=
  let localClient := self.client
  let _afterTake := takeOption localClient
  self

/-! ## Extension values (`utils.rs` lines 73-124)

Floats are carried as their IEEE-754 bit patterns (`Nat`), since every
conversion in play (`f64` → CPython float → `f64`) is bit-preserving and
nothing in the crate computes with them. -/

/-- `ExtensionPrimitive` (utils.rs lines 73-81). -/
inductive ExtensionPrimitive where
  | str (s : String)
  | i64 (i : Int)
  | u64 (u : Nat)
  | f64 (bits : Nat)
  | bool (b : Bool)
  | bytes (bs : List Nat)
  deriving DecidableEq, Repr

/-- `ExtensionValue` (utils.rs lines 82-92). -/
inductive ExtensionValue where
  | str (s : String)
  | i64 (i : Int)
  | u64 (u : Nat)
  | f64 (bits : Nat)
  | bool (b : Bool)
  | bytes (bs : List Nat)
  | dict (entries : List (String × ExtensionPrimitive))
  | list (items : List ExtensionPrimitive)
  deriving DecidableEq, Repr

/-- `Extensions = HashMap<String, ExtensionValue>`, modelled as an
association list whose keys are distinct (the HashMap invariant). -/
abbrev Extensions := List (String × ExtensionValue)

/-- `HashMap::insert`: replace the entry of an existing key, else add. -/
def insertExt : Extensions → String → ExtensionValue → Extensions
  | [], k, v => [(k, v)]
  | kv :: rest, k, v =>
    if kv.1 = k then (k, v) :: rest else kv :: insertExt rest k v

/-- `HashMap::get` by key. -/
def lookupExt : Extensions → String → Option ExtensionValue
  | [], _ => none
  | kv :: rest, k => if kv.1 = k then some kv.2 else lookupExt rest k

/-- A Python value as it travels through the pyo3 boundary: the shapes the
`IntoPyObject` / `FromPyObject` derives of the two extension enums touch. -/
inductive PyVal where
  | str (s : String)
  | int (i : Int)
  | float (bits : Nat)
  | bool (b : Bool)
  | bytes (bs : List Nat)
  | dict (entries : List (PyVal × PyVal))
  | list (items : List PyVal)

/-- `IntoPyObject` for `ExtensionPrimitive`: each variant converts to the
corresponding Python value; both `i64` and `u64` become Python ints. -/
def ExtensionPrimitive.toPy : ExtensionPrimitive → PyVal
  | .str s => .str s
  | .i64 i => .int i
  | .u64 u => .int (u : Int)
  | .f64 bits => .float bits
  | .bool b => .bool b
  | .bytes bs => .bytes bs

/-- `IntoPyObject` for `ExtensionValue`: primitives as above; a `Dict`
becomes a Python dict with string keys, a `List` a Python list. -/
def ExtensionValue.toPy : ExtensionValue → PyVal
  | .str s => .str s
  | .i64 i => .int i
  | .u64 u => .int (u : Int)
  | .f64 bits => .float bits
  | .bool b => .bool b
  | .bytes bs => .bytes bs
  | .dict es => .dict (es.map fun kv => (PyVal.str kv.1, kv.2.toPy))
  | .list xs => .list (xs.map ExtensionPrimitive.toPy)

/-- pyo3 extraction of `String`: Python str only. -/
def extractStr : PyVal → Option String
  | .str s => some s
  | _ => none

/-- pyo3 extraction of `i64` (`PyLong_AsLongLong`): any Python int in the
signed 64-bit range; Python bools are ints and extract as 1 / 0. -/
def extractI64 : PyVal → Option Int
  | .int i => if -(2 ^ 63) ≤ i ∧ i < 2 ^ 63 then some i else none
  | .bool b => some (if b then 1 else 0)
  | _ => none

/-- pyo3 extraction of `u64`: any Python int in the unsigned 64-bit range;
Python bools again extract as 1 / 0. -/
def extractU64 : PyVal → Option Nat
  | .int i => if 0 ≤ i ∧ i < 2 ^ 64 then some i.toNat else none
  | .bool b => some (if b then 1 else 0)
  | _ => none

/-- pyo3 extraction of `f64` from a Python float.  (CPython would also
coerce ints, but in the derive's variant order every int or bool is already
captured by the `I64` / `U64` variants for any value `extensions_to_dict`
can produce, so that arm is unreachable here.) -/
def extractF64 : PyVal → Option Nat
  | .float bits => some bits
  | _ => none

/-- pyo3 extraction of `bool`: exact Python bools only. -/
def extractBool : PyVal → Option Bool
  | .bool b => some b
  | _ => none

/-- pyo3 extraction of `&[u8]` (`BytesExt`): Python bytes only. -/
def extractBytes : PyVal → Option (List Nat)
  | .bytes bs => some bs
  | _ => none

/-- `FromPyObject` for `ExtensionPrimitive`: the derive tries the variants
in declaration order — Str, I64, U64, F64, Bool, Bytes — and returns the
first extraction that succeeds. -/
def extractPrimitive (v : PyVal) : Option ExtensionPrimitive :=
  ((extractStr v).map ExtensionPrimitive.str) <|>
  ((extractI64 v).map ExtensionPrimitive.i64) <|>
  ((extractU64 v).map ExtensionPrimitive.u64) <|>
  ((extractF64 v).map ExtensionPrimitive.f64) <|>
  ((extractBool v).map ExtensionPrimitive.bool) <|>
  ((extractBytes v).map ExtensionPrimitive.bytes)

/-- Extraction of `Vec<ExtensionPrimitive>` element by element. -/
def extractPrimList : List PyVal → Option (List ExtensionPrimitive)
  | [] => some []
  | v :: rest => do
    let p ← extractPrimitive v
    let ps ← extractPrimList rest
    pure (p :: ps)

/-- Extraction of `HashMap<String, ExtensionPrimitive>` entry by entry. -/
def extractPrimEntries : List (PyVal × PyVal) → Option (List (String × ExtensionPrimitive))
  | [] => some []
  | (k, v) :: rest => do
    let ks ← extractStr k
    let p ← extractPrimitive v
    let ps ← extractPrimEntries rest
    pure ((ks, p) :: ps)

/-- `FromPyObject` for `ExtensionValue`: the six primitive variants in
declaration order, then `Dict`, then `List`. -/
def extractValue (v : PyVal) : Option ExtensionValue :=
  ((extractStr v).map ExtensionValue.str) <|>
  ((extractI64 v).map ExtensionValue.i64) <|>
  ((extractU64 v).map ExtensionValue.u64) <|>
  ((extractF64 v).map ExtensionValue.f64) <|>
  ((extractBool v).map ExtensionValue.bool) <|>
  ((extractBytes v).map ExtensionValue.bytes) <|>
  (match v with
   | .dict es => (extractPrimEntries es).map ExtensionValue.dict
   | _ => none) <|>
  (match v with
   | .list xs => (extractPrimList xs).map ExtensionValue.list
   | _ => none)

/-- `extensions_to_dict` (utils.rs lines 95-104): one dict item per map
entry, string key, converted value. -/
def extensions_to_dict (m : Extensions) : List (PyVal × PyVal) :=
  m.map fun kv => (PyVal.str kv.1, kv.2.toPy)

/-- The loop of `extensions_from_dict` (utils.rs lines 116-124): extract
each key as a String and each value as an `ExtensionValue`, inserting into
the accumulating map; the first failing extraction aborts (`none`). -/
def extFromDictLoop (acc : Extensions) : List (PyVal × PyVal) → Option Extensions
  | [] => some acc
  | (k, v) :: rest => do
    let ks ← extractStr k
    let ev ← extractValue v
    extFromDictLoop (insertExt acc ks ev) rest

/-- `extensions_from_dict` (utils.rs lines 116-124). -/
def extensions_from_dict (d : List (PyVal × PyVal)) : Option Extensions :=
  extFromDictLoop [] d

/-! ## Trace middleware (`trace.rs`) -/

/-- Observable hook/dispatch events of one `TraceMiddleware::handle` run.
The `endHook` event records whether the `ResponseTraceData` handed to the
end hook carried a response descriptor and whether it carried an error
descriptor. -/
inductive TraceEvent where
  | startHook
  | dispatch
  | endHook (hasResponse : Bool) (hasError : Bool)
  deriving DecidableEq, Repr

/-- A middleware-level error: a Python error propagated from a hook (or a
dict conversion), or the transport error from `next.run`. -/
inductive MwErr where
  | py (e : PyErr)
  | transport (e : ReqwestError)
  deriving DecidableEq, Repr

/-- Outcomes of the host-side collaborators of one traced request: for each
hook, the extension map read back out of the (possibly mutated) dict after
the hook's awaitable completes — or the Python error raised along the way —
plus the dispatch outcome of `next.run`. -/
structure TraceEnv where
  startHookOutcome : Except PyErr Extensions
  endHookOutcome : Except PyErr Extensions
  dispatchOutcome : Except ReqwestError TransportResponse
  deriving DecidableEq, Repr

/-- The extension-merge block of `TraceMiddleware::handle` (trace.rs lines
79-88), run only on a successful dispatch: start from the response's own
extension store (or a fresh one), insert the transport-reported version
under "http_version", then copy every entry of the request-context
extension map over it. -/
def mergeResponseExtensions (respExt : Option Extensions) (version : Version)
    (reqExt : Option Extensions) : Extensions :=
  let ext := respExt.getD []
  let ext := insertExt ext "http_version"
    (.bytes (stringBytes (http_version_str version)))
  match reqExt with
  | some re => re.foldl (fun acc kv => insertExt acc kv.1 kv.2) ext
  | none => ext

/-- Result of one `TraceMiddleware::handle` run: the response paired with
its final extension store (or the error), the event trace, and the final
request-context `Extensions` entry. -/
structure HandleResult where
  result : Except MwErr (TransportResponse × Extensions)
  events : List TraceEvent
  reqExtFinal : Option Extensions
  deriving DecidableEq, Repr

/-- `TraceMiddleware::handle` (trace.rs lines 66-91) together with
`on_request_start` (lines 115-149) and `on_request_end` (lines 151-190):
with no tracer both hooks are pass-throughs; with a tracer the start hook
runs and its map replaces the request-context entry, then the dispatch,
then the end hook (on success and on failure alike, its descriptor flags
reflecting the dispatch outcome), then — only on a successful dispatch —
the extension merge into the response. -/
def TraceMiddleware.handle (tracerPresent : Bool) (env : TraceEnv)
    (reqExt : Option Extensions) (respExt : Option Extensions) : HandleResult :=
  if tracerPresent then
    match env.startHookOutcome with
    | .error e =>
      { result := .error (.py e), events := [.startHook], reqExtFinal := reqExt }
    | .ok startExt =>
      let reqExt1 : Option Extensions := some startExt
      match env.dispatchOutcome with
      | .error de =>
        match env.endHookOutcome with
        | .error e =>
          { result := .error (.py e),
            events := [.startHook, .dispatch, .endHook false true],
            reqExtFinal := reqExt1 }
        | .ok endExt =>
          { result := .error (.transport de),
            events := [.startHook, .dispatch, .endHook false true],
            reqExtFinal := some endExt }
      | .ok resp =>
        match env.endHookOutcome with
        | .error e =>
          { result := .error (.py e),
            events := [.startHook, .dispatch, .endHook true false],
            reqExtFinal := reqExt1 }
        | .ok endExt =>
          { result := .ok (resp, mergeResponseExtensions respExt resp.version (some endExt)),
            events := [.startHook, .dispatch, .endHook true false],
            reqExtFinal := some endExt }
  else
    match env.dispatchOutcome with
    | .error de =>
      { result := .error (.transport de), events := [.dispatch], reqExtFinal := reqExt }
    | .ok resp =>
      { result := .ok (resp, mergeResponseExtensions respExt resp.version reqExt),
        events := [.dispatch], reqExtFinal := reqExt }

/-! ## Canonical forms and well-formedness for extension values -/

/-- Well-formedness of an `ExtensionPrimitive` as a Rust value: `i64` holds a
signed 64-bit integer, `u64` an unsigned 64-bit integer. -/
def ExtensionPrimitive.wf : ExtensionPrimitive → Bool
  | .i64 i => decide (-(2 ^ 63) ≤ i ∧ i < 2 ^ 63)
  | .u64 u => decide (u < 2 ^ 64)
  | _ => true

/-- Well-formedness of an `ExtensionValue` as a Rust value. -/
def ExtensionValue.wf : ExtensionValue → Bool
  | .i64 i => decide (-(2 ^ 63) ≤ i ∧ i < 2 ^ 63)
  | .u64 u => decide (u < 2 ^ 64)
  | .dict es => es.all fun kv => kv.2.wf
  | .list xs => xs.all ExtensionPrimitive.wf
  | _ => true

/-- The canonical form a primitive assumes after one Python round trip: a
`u64` that fits in `i64` comes back as `i64`, a `bool` comes back as the
`i64` 1 or 0 (a Python bool is an int and the `I64` variant is tried
first); everything else round-trips to itself. -/
def ExtensionPrimitive.canon : ExtensionPrimitive → ExtensionPrimitive
  | .u64 u => if u < 2 ^ 63 then .i64 (u : Int) else .u64 u
  | .bool b => .i64 (if b then 1 else 0)
  | p => p

/-- The canonical form an `ExtensionValue` assumes after one Python round
trip. -/
def ExtensionValue.canon : ExtensionValue → ExtensionValue
  | .u64 u => if u < 2 ^ 63 then .i64 (u : Int) else .u64 u
  | .bool b => .i64 (if b then 1 else 0)
  | .dict es => .dict (es.map fun kv => (kv.1, kv.2.canon))
  | .list xs => .list (xs.map ExtensionPrimitive.canon)
  | v => v

/-- Canonical form of a whole extension map. -/
def canonExtensions (m : Extensions) : Extensions :=
  m.map fun kv => (kv.1, kv.2.canon)

/-- `Except.isOk` as used in the trace-ordering statements. -/
def exceptIsOk {ε α : Type} : Except ε α → Bool
  | .ok _ => true
  | .error _ => false

/-! ## Concrete example values used by the closed theorems -/

/-- A 200 HTTP/1.1 transport response with no headers. -/
def okTransport : TransportResponse :=
  { status := 200, headers := [], version := .http11, bodyHandle := 0 }

/-- A client constructed without a connection limit. -/
def plainClient : NativeAsyncClient :=
  { client := some 0, request_semaphore := false, connect_timeout := none, proxy := none }

/-- A client constructed with a connection limit (a request semaphore). -/
def gatedClient : NativeAsyncClient :=
  { client := some 0, request_semaphore := true, connect_timeout := none, proxy := none }

/-- A request environment in which every collaborator succeeds. -/
def okEnv : RequestEnv :=
  { parsedMethod := .ok "GET", parsedUrl := .ok ⟨"http"⟩, content := none,
    deadlineElapsed := false, execute := .ok okTransport }

/-- A live response holding a permit, with an attached body cursor. -/
def liveResponse : NativeAsyncResponse :=
  { status := 200, headers := [], http_version := "HTTP/1.1", response := some 7,
    request_semaphore_permit := true }

/-- A trace environment in which both hooks succeed with empty maps and the
dispatch succeeds. -/
def okTraceEnv : TraceEnv :=
  { startHookOutcome := .ok [], endHookOutcome := .ok [], dispatchOutcome := .ok okTransport }

/-- A request environment whose validation all passes but whose dispatch
fails with a connection error. -/
def dispatchErrEnv : RequestEnv :=
  { okEnv with execute := .error ⟨true, false, "connection refused"⟩ }

/-- A request environment whose method fails to parse. -/
def badMethodEnv : RequestEnv :=
  { okEnv with parsedMethod := .error ⟨.badMethod, "Invalid HTTP method: invalid token"⟩ }

/-- A trace environment whose end hook rewrites the extension map,
overriding the "http_version" key. -/
def overrideTraceEnv : TraceEnv :=
  { startHookOutcome := .ok [], dispatchOutcome := .ok okTransport,
    endHookOutcome := .ok [("http_version", .str "hooked")] }

/-! # Theorems -/

/-! ## Helper lemmas -/

theorem lookupExt_insertExt_self (m : Extensions) (k : String) (v : ExtensionValue) :
    lookupExt (insertExt m k v) k = some v := by
  induction m with
  | nil => simp [insertExt, lookupExt]
  | cons kv rest ih =>
    by_cases h : kv.1 = k
    · simp [insertExt, h, lookupExt]
    · simp [insertExt, h, lookupExt, ih]

theorem lookupExt_insertExt_ne (m : Extensions) (k k₁ : String) (v₁ : ExtensionValue)
    (h : k₁ ≠ k) : lookupExt (insertExt m k₁ v₁) k = lookupExt m k := by
  induction m with
  | nil => simp [insertExt, lookupExt, h]
  | cons kv rest ih =>
    by_cases hkv : kv.1 = k₁
    · simp [insertExt, hkv, lookupExt, h]
    · by_cases hk : kv.1 = k
      · simp [insertExt, hkv, lookupExt, hk, Ne.symm h]
      · simp [insertExt, hkv, lookupExt, hk, ih]

theorem lookupExt_foldl_insert_not_mem (l : Extensions) (acc : Extensions) (k : String)
    (h : ∀ kv ∈ l, kv.1 ≠ k) :
    lookupExt (l.foldl (fun a kv => insertExt a kv.1 kv.2) acc) k = lookupExt acc k := by
  induction l generalizing acc with
  | nil => rfl
  | cons kv rest ih =>
    simp only [List.foldl_cons]
    rw [ih (insertExt acc kv.1 kv.2) (fun kv2 hm => h kv2 (by simp [hm]))]
    exact lookupExt_insertExt_ne acc k kv.1 kv.2 (h kv (by simp))

theorem lookupExt_foldl_insert_mem (l : Extensions) (acc : Extensions) (k : String)
    (v : ExtensionValue) (hnd : (l.map Prod.fst).Nodup) (hmem : (k, v) ∈ l) :
    lookupExt (l.foldl (fun a kv => insertExt a kv.1 kv.2) acc) k = some v := by
  induction l generalizing acc with
  | nil => cases hmem
  | cons kv rest ih =>
    simp only [List.map_cons, List.nodup_cons] at hnd
    simp only [List.foldl_cons]
    rcases List.mem_cons.mp hmem with heq | hmem2
    · subst heq
      rw [lookupExt_foldl_insert_not_mem rest (insertExt acc k v) k
        (fun kv2 hm hk => hnd.1 (by
          have h2 : kv2.1 ∈ rest.map Prod.fst := List.mem_map_of_mem Prod.fst hm
          simpa [hk] using h2))]
      exact lookupExt_insertExt_self acc k v
    · exact ih (insertExt acc kv.1 kv.2) hnd.2 hmem2

theorem insertExt_append (acc : Extensions) (k : String) (v : ExtensionValue)
    (h : ∀ kv ∈ acc, kv.1 ≠ k) : insertExt acc k v = acc ++ [(k, v)] := by
  induction acc with
  | nil => rfl
  | cons kv rest ih =>
    have h1 : kv.1 ≠ k := h kv (by simp)
    simp [insertExt, h1, ih (fun kv2 hm => h kv2 (by simp [hm]))]

theorem validateHeaderList_error_kind (hs : List (List Nat × List Nat)) (e : PyErr)
    (h : validateHeaderList hs = .error e) : e.kind = .badHeader := by
  induction hs with
  | nil => simp [validateHeaderList] at h
  | cons kv rest ih =>
    obtain ⟨k, v⟩ := kv
    by_cases hn : (headerNameFromBytes k).isSome
    · by_cases hv : headerValueValid v
      · simp only [validateHeaderList, hn, if_true, hv] at h
        exact ih h
      · simp only [validateHeaderList, hn, if_true, hv, if_false] at h
        cases h
        rfl
    · simp only [validateHeaderList, hn, if_false] at h
      cases h
      rfl

theorem validateHeaders_error_kind (hs : Option (List (List Nat × List Nat))) (e : PyErr)
    (h : validateHeaders hs = .error e) : e.kind = .badHeader := by
  cases hs with
  | none => simp [validateHeaders] at h
  | some l => exact validateHeaderList_error_kind l e h

/-! ## C1 -/

/-- C1: the claim says that after `close()` every subsequent `request` fails
with a "not initialized" error.  The code violates this: `close` clones
`self.client` and calls `take()` only on the local clone, so `self.client`
remains set and the subsequent `request` proceeds normally (here, all the
way to a successful response); also shown: the client handle is still
present after close, and a second close leaves the state equally unchanged
(the idempotence half of the claim holds vacuously). -/
theorem C1_request_after_close_succeeds :
    (plainClient.close.request 0 okEnv none none).1 =
      .ok { status := 200, headers := [], http_version := "HTTP/1.1",
            response := some 0, request_semaphore_permit := false } ∧
    plainClient.close.client = some 0 ∧
    plainClient.close.close = plainClient.close := by
  refine ⟨rfl, rfl, rfl⟩

/-! ## C3 -/

/-- C3: the claim says `close()` detaches the body cursor so every
`__anext__` after close errors.  The code violates this: `close` calls
`take()` on a local clone of `self.response`, so the cursor stays attached
and a pull after close still returns a chunk.  The permit half of the claim
does hold in the code and is shown alongside: the first close releases the
permit, a second close releases nothing. -/
theorem C3_pull_after_close_still_succeeds :
    (liveResponse.close.1.anext (.chunk [104, 105])).1 = .ok [104, 105] ∧
    liveResponse.close.1.response = some 7 ∧
    liveResponse.close.2 = [.releasePermit] ∧
    liveResponse.close.1.close.2 = [] := by
  refine ⟨rfl, rfl, rfl, rfl⟩

/-! ## C6 -/

/-- C6: if the connect-phase deadline elapses before a permit becomes
available, acquisition fails with the PoolTimeout error kind and the gate's
available-permit count is unchanged. -/
theorem C6_pool_timeout_consumes_no_permit (available d : Nat) :
    ∃ e : PyErr, limit_connections available (some d) true = (.error e, available) ∧
      e.kind = .poolTimeout :=
  ⟨⟨.poolTimeout, "Timeout acquiring semaphore"⟩, rfl, rfl⟩

/-! ## C7 -/

/-- C7: every transport error is classified into exactly one of the three
kinds — connection, timeout, unknown — and dispatch-time (`map_send_error`)
and chunk-pull-time (`map_read_error`) classification follow the same rule:
connection errors map to the connection kind, timeout errors to the timeout
kind, everything else to the unknown kind. -/
theorem C7_same_classification_both_places (e : ReqwestError) :
    errKindClass (map_send_error e).kind = some (classifyTransportError e) ∧
    errKindClass (map_read_error e).kind = some (classifyTransportError e) := by
  rcases e with ⟨c, t, m⟩
  cases c <;> cases t <;>
    simp [map_send_error, map_read_error, errKindClass, classifyTransportError]

/-! ## C2 -/

/-- C2 counterexample: a request whose only invalid input is a header (the
name byte 32 is not a valid header-name byte) made on a client with an
admission gate.  The pipeline acquires a permit before the header check, so
"no Admission Permit is ever acquired" is false — the event trace of the
call is acquire-then-release, not empty (the typed BadHeaderError itself is
returned as claimed). -/
theorem C2_counterexample :
    (gatedClient.request 1 okEnv (some [([32], [65])]) none).2 =
      [.acquirePermit, .releasePermit] ∧
    (gatedClient.request 1 okEnv (some [([32], [65])]) none).1 =
      .error ⟨.badHeader, "Invalid header key"⟩ := by
  refine ⟨rfl, rfl⟩

/-- C2 (amended): method and URL validation short-circuit with a typed
error before admission and before any network I/O (the event trace is
empty); header validation happens inside the dispatch future, after
admission — a bad header returns a typed BadHeaderError before any network
I/O and releases the just-acquired permit, so the gate's permit count is
unchanged after the call although a permit was acquired. -/
theorem C2_validation_order_and_admission (self : NativeAsyncClient) (available : Nat)
    (env : RequestEnv) (headers : Option (List (List Nat × List Nat)))
    (timeout : Option Nat) (cl : Nat) (hcl : self.client = some cl) :
    (∀ e, env.parsedMethod = .error e →
      self.request available env headers timeout = (.error e, [])) ∧
    (∀ m e, env.parsedMethod = .ok m → env.parsedUrl = .error e →
      self.request available env headers timeout = (.error e, [])) ∧
    (∀ m url, env.parsedMethod = .ok m → env.parsedUrl = .ok url →
      (url.scheme != "http" && url.scheme != "https") = true →
      self.request available env headers timeout =
        (.error ⟨.badUrl, "Invalid URL scheme: " ++ url.scheme⟩, [])) ∧
    (∀ m url e, env.parsedMethod = .ok m → env.parsedUrl = .ok url →
      (url.scheme != "http" && url.scheme != "https") = false →
      env.content = none → env.deadlineElapsed = false →
      validateHeaders headers = .error e →
      e.kind = .badHeader ∧
      self.request available env headers timeout =
        (.error e,
         if self.request_semaphore then [.acquirePermit, .releasePermit] else [])) := by
  refine ⟨?_, ?_, ?_, ?_⟩
  · intro e he
    simp [NativeAsyncClient.request, hcl, he]
  · intro m e hm he
    simp [NativeAsyncClient.request, hcl, hm, he]
  · intro m url hm hu hs
    simp [NativeAsyncClient.request, hcl, hm, hu, hs]
  · intro m url e hm hu hs hc hd hh
    refine ⟨validateHeaders_error_kind headers e hh, ?_⟩
    simp only [NativeAsyncClient.request, hcl, hm, hu, hs, hc, hd,
      Bool.false_eq_true, if_false]
    cases hsem : self.request_semaphore <;> cases hct : self.connect_timeout <;>
      simp [requestFuture, hsem, hct, limit_connections, acquire_owned, hh]

/-! ## C4 -/

/-- C4 counterexample: a chunk pull that observes the terminal end-of-stream
signal does not release the Admission Permit — the pull's event trace is
empty and the permit is still held afterwards; the permit is released only
by explicit close or by the Response value being dropped. -/
theorem C4_counterexample :
    (liveResponse.anext .eos).2.2 = [] ∧
    (liveResponse.anext .eos).2.1.request_semaphore_permit = true ∧
    (liveResponse.anext .eos).1 = .error ⟨.stopAsyncIteration, "End of stream"⟩ := by
  refine ⟨rfl, rfl, rfl⟩

/-- C4 (amended): exactly one permit is acquired and exactly one released
on every path, but end-of-stream does not itself release the permit — the
release happens at explicit close or at drop of the Response.  Shown: (a) a
chunk pull never emits a release and never changes permit ownership; (b)
when a response holds the permit, running close and then drop releases it
exactly once, as does drop alone; (c) on the error-during-dispatch path the
pipeline acquires once and releases once; (d) on the successful path the
pipeline acquires once, releases nothing, and the returned response holds
the permit. -/
theorem C4_permit_exactly_once (r : NativeAsyncResponse) (pull : ChunkPull)
    (self : NativeAsyncClient) (available : Nat) (env : RequestEnv)
    (headers : Option (List (List Nat × List Nat))) (timeout : Option Nat)
    (cl : Nat) (method : String) (url : Url)
    (hcl : self.client = some cl) (hsem : self.request_semaphore = true)
    (hm : env.parsedMethod = .ok method) (hu : env.parsedUrl = .ok url)
    (hs : (url.scheme != "http" && url.scheme != "https") = false)
    (hc : env.content = none) (hd : env.deadlineElapsed = false)
    (hh : validateHeaders headers = .ok ()) :
    ((r.anext pull).2.2.count .releasePermit = 0 ∧
      (r.anext pull).2.1.request_semaphore_permit = r.request_semaphore_permit) ∧
    (r.request_semaphore_permit = true →
      (r.close.2 ++ r.close.1.dropResp).count .releasePermit = 1 ∧
      r.dropResp.count .releasePermit = 1) ∧
    (∀ err, env.execute = .error err →
      self.request available env headers timeout =
        (.error (map_send_error err), [.acquirePermit, .dispatch, .releasePermit])) ∧
    (∀ resp vs, env.execute = .ok resp →
      response_http_version_str resp.version = .ok vs →
      ∃ rOut, self.request available env headers timeout =
          (.ok rOut, [.acquirePermit, .dispatch]) ∧
        rOut.request_semaphore_permit = true) := by
  refine ⟨?_, ?_, ?_, ?_⟩
  · cases hresp : r.response with
    | none => simp [NativeAsyncResponse.anext, hresp]
    | some h =>
      cases pull <;> simp [NativeAsyncResponse.anext, hresp]
  · intro hperm
    simp [NativeAsyncResponse.close, NativeAsyncResponse.dropResp, hperm]
  · intro err hex
    simp only [NativeAsyncClient.request, hcl, hm, hu, hs, hc, hd,
      Bool.false_eq_true, if_false]
    cases hct : self.connect_timeout <;>
      simp [requestFuture, hsem, hct, limit_connections, acquire_owned, hh, hex]
  · intro resp vs hex hver
    refine ⟨⟨resp.status, resp.headers, vs, some resp.bodyHandle, true⟩, ?_, rfl⟩
    simp only [NativeAsyncClient.request, hcl, hm, hu, hs, hc, hd,
      Bool.false_eq_true, if_false]
    cases hct : self.connect_timeout <;>
      simp [requestFuture, hsem, hct, limit_connections, acquire_owned, hh, hex,
        NativeAsyncResponse.new, hver]

/-! ## C5 -/

/-- C5: for every traced request whose start hook completes, the observed
event order is exactly start hook, then dispatch, then end hook — the end
hook runs whether dispatch succeeded or failed — and the end hook's data
carries a response descriptor exactly when dispatch succeeded and an error
descriptor exactly when it failed. -/
theorem C5_trace_ordering (env : TraceEnv) (reqExt respExt : Option Extensions)
    (startExt : Extensions) (hstart : env.startHookOutcome = .ok startExt) :
    (TraceMiddleware.handle true env reqExt respExt).events =
      [.startHook, .dispatch,
       .endHook (exceptIsOk env.dispatchOutcome) (!exceptIsOk env.dispatchOutcome)] := by
  cases hd : env.dispatchOutcome <;> cases he : env.endHookOutcome <;>
    simp [TraceMiddleware.handle, hstart, hd, he, exceptIsOk]

/-- C5 witness: the ordering theorem applied to a concrete successful run. -/
theorem C5_trace_ordering_witness :
    (TraceMiddleware.handle true okTraceEnv none none).events =
      [.startHook, .dispatch,
       .endHook (exceptIsOk okTraceEnv.dispatchOutcome)
         (!exceptIsOk okTraceEnv.dispatchOutcome)] :=
  C5_trace_ordering okTraceEnv none none [] rfl

/-- C2 witness: the amended validation theorem applied to a concrete bad
method on a gated client. -/
theorem C2_validation_order_and_admission_witness :
    gatedClient.request 1 badMethodEnv none none =
      (.error ⟨.badMethod, "Invalid HTTP method: invalid token"⟩, []) :=
  (C2_validation_order_and_admission gatedClient 1 badMethodEnv none none 0 rfl).1
    ⟨.badMethod, "Invalid HTTP method: invalid token"⟩ rfl

/-- C4 witness: the amended permit theorem applied to a concrete
error-during-dispatch run on a gated client. -/
theorem C4_permit_exactly_once_witness :
    gatedClient.request 1 dispatchErrEnv none none =
      (.error (map_send_error ⟨true, false, "connection refused"⟩),
       [.acquirePermit, .dispatch, .releasePermit]) :=
  (C4_permit_exactly_once liveResponse (.chunk []) gatedClient 1 dispatchErrEnv none none
      0 "GET" ⟨"http"⟩ rfl rfl rfl rfl (by decide) rfl rfl rfl).2.2.1
    ⟨true, false, "connection refused"⟩ rfl

/-! ## C8 -/

/-- C8: with an otherwise valid proxy URL, a custom header list of two or
more entries fails with a header-validation error; a single entry whose
name does not normalize to proxy-authorization (including an invalid name)
fails with a header-validation error; a single proxy-authorization entry
with a valid value is accepted and installed as the custom auth header. -/
theorem C8_proxy_header_rules (u : Url) (ba : Option (String × String))
    (hs : List (List Nat × List Nat))
    (hscheme : (u.scheme != "http" && u.scheme != "https" &&
        u.scheme != "socks5" && u.scheme != "socks5h") = false) :
    (2 ≤ hs.length →
      ∃ e, build_reqwest_proxy (.ok u) ba (some hs) = .error e ∧ e.kind = .badHeader) ∧
    (∀ name value, hs = [(name, value)] →
      (∀ lowered, headerNameFromBytes name = some lowered → lowered ≠ proxyAuthName) →
      ∃ e, build_reqwest_proxy (.ok u) ba (some hs) = .error e ∧ e.kind = .badHeader) ∧
    (∀ name value, hs = [(name, value)] →
      headerNameFromBytes name = some proxyAuthName →
      headerValueValid value = true →
      build_reqwest_proxy (.ok u) ba (some hs) =
        .ok { url := u, basic_auth := ba, custom_http_auth := some value }) := by
  refine ⟨?_, ?_, ?_⟩
  · intro hlen
    have h1 : hs.length > 1 := hlen
    refine ⟨⟨.badHeader, "Only Proxy-Authorization header is allowed, for now."⟩, ?_, rfl⟩
    simp [build_reqwest_proxy, hscheme, h1]
  · intro name value heq hne
    subst heq
    cases hn : headerNameFromBytes name with
    | none =>
      refine ⟨⟨.badHeader, "Invalid header name"⟩, ?_, rfl⟩
      simp [build_reqwest_proxy, hscheme, hn]
    | some lowered =>
      refine ⟨⟨.badHeader, "Only Proxy-Authorization header is allowed, for now."⟩, ?_, rfl⟩
      simp [build_reqwest_proxy, hscheme, hn, hne lowered hn]
  · intro name value heq hn hv
    subst heq
    simp [build_reqwest_proxy, hscheme, hn, hv]

/-- C8 witness: the accept case at a concrete proxy-authorization header. -/
theorem C8_proxy_header_rules_witness :
    build_reqwest_proxy (.ok ⟨"http"⟩) none
        (some [(stringBytes "Proxy-Authorization", stringBytes "Basic x")]) =
      .ok { url := ⟨"http"⟩, basic_auth := none,
            custom_http_auth := some (stringBytes "Basic x") } :=
  (C8_proxy_header_rules ⟨"http"⟩ none
      [(stringBytes "Proxy-Authorization", stringBytes "Basic x")] (by decide)).2.2
    (stringBytes "Proxy-Authorization") (stringBytes "Basic x") rfl (by decide) (by decide)

/-! ## C9 -/

theorem extractI64_int (i : Int) :
    extractI64 (.int i) = if -(2 ^ 63) ≤ i ∧ i < 2 ^ 63 then some i else none := rfl

theorem extractU64_int (i : Int) :
    extractU64 (.int i) = if 0 ≤ i ∧ i < 2 ^ 64 then some i.toNat else none := rfl

theorem extractPrimitive_toPy (p : ExtensionPrimitive) (h : p.wf = true) :
    extractPrimitive p.toPy = some p.canon := by
  cases p with
  | str s => rfl
  | i64 i =>
    simp only [ExtensionPrimitive.wf, decide_eq_true_eq] at h
    show extractPrimitive (.int i) = some (ExtensionPrimitive.canon (.i64 i))
    unfold extractPrimitive
    rw [show extractI64 (.int i) = some i from by rw [extractI64_int, if_pos h]]
    rfl
  | u64 u =>
    simp only [ExtensionPrimitive.wf, decide_eq_true_eq] at h
    show extractPrimitive (.int (u : Int)) = some (ExtensionPrimitive.canon (.u64 u))
    by_cases hu : u < 2 ^ 63
    · have h1 : -(2 ^ 63 : Int) ≤ (u : Int) ∧ (u : Int) < 2 ^ 63 := by omega
      have hcanon : ExtensionPrimitive.canon (.u64 u) = .i64 (u : Int) := by
        show (if u < 2 ^ 63 then ExtensionPrimitive.i64 (u : Int) else ExtensionPrimitive.u64 u)
          = ExtensionPrimitive.i64 (u : Int)
        rw [if_pos hu]
      unfold extractPrimitive
      rw [hcanon,
        show extractI64 (.int (u : Int)) = some (u : Int) from by
          rw [extractI64_int, if_pos h1]]
      rfl
    · have h1 : ¬(-(2 ^ 63 : Int) ≤ (u : Int) ∧ (u : Int) < 2 ^ 63) := by omega
      have h2 : (0 : Int) ≤ (u : Int) ∧ (u : Int) < 2 ^ 64 := by omega
      have hcanon : ExtensionPrimitive.canon (.u64 u) = .u64 u := by
        show (if u < 2 ^ 63 then ExtensionPrimitive.i64 (u : Int) else ExtensionPrimitive.u64 u)
          = ExtensionPrimitive.u64 u
        rw [if_neg hu]
      unfold extractPrimitive
      rw [hcanon,
        show extractI64 (.int (u : Int)) = none from by rw [extractI64_int, if_neg h1],
        show extractU64 (.int (u : Int)) = some u from by
          rw [extractU64_int, if_pos h2, Int.toNat_natCast]]
      rfl
  | f64 bits => rfl
  | bool b => cases b <;> rfl
  | bytes bs => rfl

theorem extractPrimList_map (xs : List ExtensionPrimitive)
    (h : xs.all ExtensionPrimitive.wf = true) :
    extractPrimList (xs.map ExtensionPrimitive.toPy) =
      some (xs.map ExtensionPrimitive.canon) := by
  induction xs with
  | nil => rfl
  | cons p rest ih =>
    simp only [List.all_cons, Bool.and_eq_true] at h
    simp [extractPrimList, extractPrimitive_toPy p h.1, ih h.2]

theorem extractPrimEntries_map (es : List (String × ExtensionPrimitive))
    (h : (es.all fun kv => kv.2.wf) = true) :
    extractPrimEntries (es.map fun kv => (PyVal.str kv.1, kv.2.toPy)) =
      some (es.map fun kv => (kv.1, kv.2.canon)) := by
  induction es with
  | nil => rfl
  | cons kv rest ih =>
    simp only [List.all_cons, Bool.and_eq_true] at h
    obtain ⟨k, p⟩ := kv
    simp [extractPrimEntries, extractStr, extractPrimitive_toPy p h.1, ih h.2]

theorem extractValue_toPy (v : ExtensionValue) (h : v.wf = true) :
    extractValue v.toPy = some v.canon := by
  cases v with
  | str s => rfl
  | i64 i =>
    simp only [ExtensionValue.wf, decide_eq_true_eq] at h
    show extractValue (.int i) = some (ExtensionValue.canon (.i64 i))
    unfold extractValue
    rw [show extractI64 (.int i) = some i from by rw [extractI64_int, if_pos h]]
    rfl
  | u64 u =>
    simp only [ExtensionValue.wf, decide_eq_true_eq] at h
    show extractValue (.int (u : Int)) = some (ExtensionValue.canon (.u64 u))
    by_cases hu : u < 2 ^ 63
    · have h1 : -(2 ^ 63 : Int) ≤ (u : Int) ∧ (u : Int) < 2 ^ 63 := by omega
      have hcanon : ExtensionValue.canon (.u64 u) = .i64 (u : Int) := by
        show (if u < 2 ^ 63 then ExtensionValue.i64 (u : Int) else ExtensionValue.u64 u)
          = ExtensionValue.i64 (u : Int)
        rw [if_pos hu]
      unfold extractValue
      rw [hcanon,
        show extractI64 (.int (u : Int)) = some (u : Int) from by
          rw [extractI64_int, if_pos h1]]
      rfl
    · have h1 : ¬(-(2 ^ 63 : Int) ≤ (u : Int) ∧ (u : Int) < 2 ^ 63) := by omega
      have h2 : (0 : Int) ≤ (u : Int) ∧ (u : Int) < 2 ^ 64 := by omega
      have hcanon : ExtensionValue.canon (.u64 u) = .u64 u := by
        show (if u < 2 ^ 63 then ExtensionValue.i64 (u : Int) else ExtensionValue.u64 u)
          = ExtensionValue.u64 u
        rw [if_neg hu]
      unfold extractValue
      rw [hcanon,
        show extractI64 (.int (u : Int)) = none from by rw [extractI64_int, if_neg h1],
        show extractU64 (.int (u : Int)) = some u from by
          rw [extractU64_int, if_pos h2, Int.toNat_natCast]]
      rfl
  | f64 bits => rfl
  | bool b => cases b <;> rfl
  | bytes bs => rfl
  | dict es =>
    simp only [ExtensionValue.wf] at h
    simp [extractValue, ExtensionValue.toPy, extractStr, extractI64, extractU64,
      extractF64, extractBool, extractBytes, extractPrimEntries_map es h,
      ExtensionValue.canon]
  | list xs =>
    simp only [ExtensionValue.wf] at h
    simp [extractValue, ExtensionValue.toPy, extractStr, extractI64, extractU64,
      extractF64, extractBool, extractBytes, extractPrimList_map xs h,
      ExtensionValue.canon]

theorem extFromDictLoop_toDict (m : Extensions) (acc : Extensions)
    (hwf : ∀ kv ∈ m, kv.2.wf = true)
    (hnd : (m.map Prod.fst).Nodup)
    (hdisj : ∀ kv ∈ acc, ∀ kv2 ∈ m, kv.1 ≠ kv2.1) :
    extFromDictLoop acc (extensions_to_dict m) = some (acc ++ canonExtensions m) := by
  induction m generalizing acc with
  | nil => simp [extensions_to_dict, extFromDictLoop, canonExtensions]
  | cons kv rest ih =>
    obtain ⟨k, v⟩ := kv
    simp only [List.map_cons, List.nodup_cons] at hnd
    have hins : insertExt acc k v.canon = acc ++ [(k, v.canon)] :=
      insertExt_append acc k v.canon
        (fun kv2 hm => hdisj kv2 hm (k, v) (List.mem_cons_self _ _))
    have hrec := ih (acc ++ [(k, v.canon)])
      (fun kv2 hm => hwf kv2 (List.mem_cons_of_mem _ hm))
      hnd.2
      (by
        intro kv2 hm kv3 hm3
        rcases List.mem_append.mp hm with hacc | hk
        · exact hdisj kv2 hacc kv3 (List.mem_cons_of_mem _ hm3)
        · have hkv2 : kv2 = (k, v.canon) := by simpa using hk
          subst hkv2
          intro hKey
          apply hnd.1
          have h3 : kv3.1 ∈ rest.map Prod.fst := List.mem_map_of_mem Prod.fst hm3
          simpa [← hKey] using h3)
    simp [extensions_to_dict, extFromDictLoop, extractStr,
      extractValue_toPy v (hwf (k, v) (List.mem_cons_self _ _)), hins,
      canonExtensions] at hrec ⊢
    simp [hrec]

/-- C9 counterexample: the round trip through the host dictionary is not the
identity — a `u64` value (here 5) comes back as the `i64` 5, because a
Python int that fits in a signed 64-bit integer is captured by the `I64`
variant, which the untagged extraction tries before `U64`. -/
theorem C9_counterexample :
    extensions_from_dict (extensions_to_dict [("k", ExtensionValue.u64 5)]) =
      some [("k", ExtensionValue.i64 5)] ∧
    some [("k", ExtensionValue.i64 5)] ≠
      some [("k", ExtensionValue.u64 5)] := by
  refine ⟨by decide, by decide⟩

/-- C9 (amended): for every well-formed Extensions map (64-bit ranges
respected, keys distinct), converting with `extensions_to_dict` and back
with `extensions_from_dict` succeeds and yields the canonical form of the
original map: every entry keeps its key, strings, in-range `i64`s, floats,
byte buffers and nested structures keep their values, while a `u64` that
fits in `i64` returns as that `i64` and a `bool` returns as the `i64` 1 or
0. -/
theorem C9_roundtrip_canonical (m : Extensions)
    (hwf : ∀ kv ∈ m, kv.2.wf = true) (hnd : (m.map Prod.fst).Nodup) :
    extensions_from_dict (extensions_to_dict m) = some (canonExtensions m) := by
  have h := extFromDictLoop_toDict m [] hwf hnd (by simp)
  simpa [extensions_from_dict] using h

/-- C9 witness: the amended round trip at a concrete two-entry map. -/
theorem C9_roundtrip_canonical_witness :
    extensions_from_dict (extensions_to_dict
        [("a", ExtensionValue.i64 5), ("b", ExtensionValue.str "x")]) =
      some (canonExtensions [("a", ExtensionValue.i64 5), ("b", ExtensionValue.str "x")]) :=
  C9_roundtrip_canonical [("a", ExtensionValue.i64 5), ("b", ExtensionValue.str "x")]
    (by decide) (by decide)

/-! ## C10 -/

/-- C10: on a successful traced dispatch the transport-reported version is
inserted under "http_version" before the request-context extension map is
copied over it, so when the hook-produced map itself binds "http_version"
the hook-supplied value is what the response's extension store finally
holds under that key. -/
theorem C10_hook_value_overrides_http_version (env : TraceEnv)
    (reqExt respExt : Option Extensions) (startExt endExt : Extensions)
    (resp : TransportResponse) (v : ExtensionValue)
    (hstart : env.startHookOutcome = .ok startExt)
    (hend : env.endHookOutcome = .ok endExt)
    (hdisp : env.dispatchOutcome = .ok resp)
    (hnd : (endExt.map Prod.fst).Nodup)
    (hmem : ("http_version", v) ∈ endExt) :
    ∃ ext, (TraceMiddleware.handle true env reqExt respExt).result = .ok (resp, ext) ∧
      lookupExt ext "http_version" = some v := by
  refine ⟨mergeResponseExtensions respExt resp.version (some endExt), ?_, ?_⟩
  · simp [TraceMiddleware.handle, hstart, hdisp, hend]
  · simp only [mergeResponseExtensions]
    exact lookupExt_foldl_insert_mem endExt _ "http_version" v hnd hmem

/-- C10 witness: the override theorem at a concrete hook map binding
"http_version" to the string "hooked". -/
theorem C10_hook_value_overrides_http_version_witness :
    ∃ ext, (TraceMiddleware.handle true overrideTraceEnv none none).result =
        .ok (okTransport, ext) ∧
      lookupExt ext "http_version" = some (.str "hooked") :=
  C10_hook_value_overrides_http_version overrideTraceEnv none none []
    [("http_version", ExtensionValue.str "hooked")] okTransport (.str "hooked")
    rfl rfl rfl (by decide) (by decide)

end HttpxNative
